import Mathlib

/-!
Verification of the focus/pomodoro session timer of the productivity app.

The engine lives in src/components/Dashboard.tsx (the timer lifecycle,
persistence and reconciliation logic of the session-owning component).
This file gives a shallow embedding of that engine:

- machine numbers are modelled as `Int` (JS numbers, only integral values
  arise in this engine);
- `Math.round(d / 1000)` on an integral millisecond difference `d` is
  `roundMsToSec d = (2*d + 1000).fdiv 2000`, since for every real `x`,
  JS `Math.round x = floor (x + 1/2)` (halves round toward positive
  infinity);
- `Math.floor (s / 60)` is `Int.fdiv s 60`;
- the JS `%` operator is `Int.tmod` (remainder truncated toward zero);
- JS truthiness tests on a nullable string or number (`if (x)`) are
  `truthyStr` / `truthyInt` (`null`, `""` and `0` are falsy);
- React `useState` values read inside a callback are the values captured
  at the start of the callback (state setters only take effect for later
  callbacks), while `useRef` cells are mutated in place; the embedding of
  each handler therefore reads the captured entry state for `useState`
  reads and threads ref updates explicitly;
- the `localStorage` snapshot slot is the `persisted` field of `World`.
-/

namespace SkylarFocus

/-- JS `Math.round(d / 1000)` for an integral number of milliseconds `d`. -/
def roundMsToSec (d : Int) : Int := Int.fdiv (2 * d + 1000) 2000

/-- JS truthiness of a nullable string: `null` and `""` are falsy. -/
def truthyStr : Option String → Bool
  | none => false
  | some s => s != ""

/-- JS truthiness of a nullable number: `null` and `0` are falsy. -/
def truthyInt : Option Int → Bool
  | none => false
  | some n => n != 0

/-- The `FocusMode` union type of Dashboard.tsx. -/
inductive FocusMode
  | stopwatch
  | pomodoro
  | short_break
  | long_break
deriving DecidableEq

/-- JS `focusMode.includes("break")`. -/
def FocusMode.isBreak : FocusMode → Bool
  | .short_break => true
  | .long_break => true
  | _ => false

def POMODORO_TIME : Int := 25 * 60

def SHORT_BREAK_TIME : Int := 5 * 60

def LONG_BREAK_TIME : Int := 15 * 60

/-- The task record fields used by the timer engine (src/types.ts). -/
structure Task where
  id : String
  text : String
  completed : Bool
  duration : Int
  actualDuration : Int
  actualPomodoros : Int
  environmentId : Option String
deriving DecidableEq

/-- An environment task list (the fields the engine touches). -/
structure Environment where
  id : String
  tasks : List Task
deriving DecidableEq

inductive PlanUnit
  | minutes
  | pomodoros
deriving DecidableEq

/-- The daily plan record fields used by the timer engine. -/
structure DailyPlan where
  date : String
  unit : PlanUnit
  tasks : List Task
  completedPomodoros : Int
deriving DecidableEq

/-- The session state owned by Dashboard: the five `useState` values
`activeFocusTaskId`, `focusMode`, `timerValue`, `isTimerActive`,
`pomodoroCycle`, and the three timing refs `endTimeRef`, `startTimeRef`,
`accumulatedElapsedRef`. -/
structure TimerState where
  activeFocusTaskId : Option String
  focusMode : Option FocusMode
  timerValue : Int
  isTimerActive : Bool
  pomodoroCycle : Int
  endTime : Option Int
  startTime : Option Int
  accumulated : Int
deriving DecidableEq

/-- The JSON object written to localStorage by Dashboard (the `toSave`
objects at the pause-persist and the periodic persist effect). -/
structure Snapshot where
  focusMode : Option FocusMode
  activeFocusTaskId : Option String
  pomodoroCycle : Int
  timerValue : Int
  isTimerActive : Bool
  endTime : Option Int
  startTime : Option Int
  accumulated : Int
deriving DecidableEq

/-- The whole mutable state the engine interacts with: its own timer
state, the two task stores (daily plan and environment lists), and the
persisted snapshot slot. -/
structure World where
  timer : TimerState
  dailyPlan : Option DailyPlan
  environments : List Environment
  activeEnvironmentId : Option String
  persisted : Option Snapshot
deriving DecidableEq

/-- The initial values of the five state hooks and three refs. -/
def initialTimer : TimerState :=
  { activeFocusTaskId := none, focusMode := none, timerValue := 0,
    isTimerActive := false, pomodoroCycle := 0, endTime := none,
    startTime := none, accumulated := 0 }

/-- The `activeEnvironment` memo:
`user.environments.find(env => env.id === user.activeEnvironmentId) || user.environments[0]`. -/
def activeEnvironment (w : World) : Option Environment :=
  let found : Option Environment :=
    match w.activeEnvironmentId with
    | some aid => w.environments.find? (fun env => env.id == aid)
    | none => none
  match found with
  | some env => some env
  | none => w.environments.head?

/-- The `activeFocusTask` memo: `null` unless the daily plan exists, the
active task id is truthy, and a plan task with that id exists. -/
def activeFocusTask (w : World) : Option Task :=
  match w.dailyPlan, w.timer.activeFocusTaskId with
  | some plan, some tid =>
    if tid = "" then none else plan.tasks.find? (fun tk => tk.id == tid)
  | _, _ => none

/-- Lookup of a task by id in a plan (the `tasks.find(t => t.id === ...)`
pattern used throughout Dashboard.tsx). -/
def findTask (p : DailyPlan) (tid : String) : Option Task :=
  p.tasks.find? (fun tk => tk.id == tid)

/-- The Duration Engine expression at the top of the timer interval
callback (Dashboard.tsx line 224):
`endTimeRef.current ? Math.max(0, Math.round((endTimeRef.current - Date.now()) / 1000)) : timerValue`. -/
def remainingSeconds (frozenRemaining : Int) (endsAt : Option Int) (now : Int) : Int :=
  if truthyInt endsAt then max 0 (roundMsToSec (endsAt.getD 0 - now))
  else frozenRemaining

/-- The ref-freezing phase of `stopTimer` (Dashboard.tsx lines 91-105):
for a stopwatch it folds the live window into `accumulatedElapsedRef` and
clears `startTimeRef`; for a count-down it freezes the remaining seconds
into `timerValue` and clears `endTimeRef`. -/
def stopTimerFreeze (now : Int) (t : TimerState) : TimerState :=
  if t.focusMode = some .stopwatch then
    if truthyInt t.startTime then
      let acc := t.accumulated + roundMsToSec (now - t.startTime.getD 0)
      { t with accumulated := acc, startTime := none, timerValue := acc }
    else { t with timerValue := t.accumulated }
  else if t.focusMode.isSome then
    if truthyInt t.endTime then
      { t with timerValue := max 0 (roundMsToSec (t.endTime.getD 0 - now)),
               endTime := none }
    else t
  else t

/-- The timer state after `stopTimer`: frozen values plus
`setIsTimerActive(false)`. -/
def stopTimerTimer (now : Int) (t : TimerState) : TimerState :=
  { stopTimerFreeze now t with isTimerActive := false }

/-- The pause snapshot written by `stopTimer` (lines 108-119). The state
reads (`focusMode`, `activeFocusTaskId`, `pomodoroCycle`, `timerValue`)
are the values captured at entry; the ref reads see the just-updated
refs. -/
def stopTimerSnap (now : Int) (t : TimerState) : Snapshot :=
  let t2 := stopTimerTimer now t
  { focusMode := t.focusMode, activeFocusTaskId := t.activeFocusTaskId,
    pomodoroCycle := t.pomodoroCycle,
    timerValue := if t.focusMode = some .stopwatch then t2.accumulated else t.timerValue,
    isTimerActive := false, endTime := t2.endTime, startTime := t2.startTime,
    accumulated := t2.accumulated }

/-- The `timeSpentInMinutes` computed by the flush part of `stopTimer`
(lines 128-135), from the captured entry state. -/
def flushDelta (t : TimerState) : Int :=
  let timeSpentInSeconds : Int :=
    if t.focusMode = some .stopwatch then t.timerValue
    else if t.focusMode = some .pomodoro then POMODORO_TIME - t.timerValue
    else 0
  Int.fdiv timeSpentInSeconds 60

/-- The daily-plan write performed by the flush part of `stopTimer`
(lines 124-145): guarded by `shouldSaveProgress`, a non-null plan, a
truthy task id and a non-null mode; adds `timeSpentInMinutes` to the
active task's `actualDuration` when positive. -/
def stopTimerPlan (save : Bool) (t : TimerState) (p? : Option DailyPlan) :
    Option DailyPlan :=
  if ¬save ∨ p?.isNone ∨ ¬truthyStr t.activeFocusTaskId ∨ t.focusMode.isNone then
    p?
  else if 0 < flushDelta t then
    match p?, t.activeFocusTaskId with
    | some plan, some tid =>
      some { plan with tasks := plan.tasks.map (fun tk =>
        if tk.id == tid then
          { tk with actualDuration := tk.actualDuration + flushDelta t }
        else tk) }
    | _, _ => p?
  else p?

/-- The `stopTimer(shouldSaveProgress)` callback (Dashboard.tsx lines
87-146): freezes the live value, persists the pause snapshot, and flushes
whole minutes into the daily-plan copy of the active task. -/
def stopTimer (save : Bool) (now : Int) (w : World) : World :=
  { w with timer := stopTimerTimer now w.timer,
           persisted := some (stopTimerSnap now w.timer),
           dailyPlan := stopTimerPlan save w.timer w.dailyPlan }

/-- The per-task update applied by the pomodoro-expiry branch of the
timer interval callback (lines 231-243). -/
def expiryTask (tid : String) (tk : Task) : Task :=
  if tk.id == tid then
    let newPomodoros := tk.actualPomodoros + 1
    { tk with actualDuration := tk.actualDuration + 25,
              actualPomodoros := newPomodoros,
              completed := if 0 < tk.duration then decide (tk.duration ≤ newPomodoros)
                else tk.completed }
  else tk

/-- The environment-list sync of the pomodoro-expiry branch (lines
246-257): when the updated plan task reached completion, its owning
environment list gets the task's `completed` flag set; otherwise the
environments are untouched. -/
def expiryEnvs (finished : Option Task) (envs : List Environment) :
    List Environment :=
  match finished with
  | some f =>
    match f.environmentId with
    | some eid =>
      if eid = "" then envs
      else envs.map (fun env =>
        if env.id == eid then
          { env with tasks := env.tasks.map (fun et =>
            if et.id == f.id then { et with completed := true } else et) }
        else env)
    | none => envs
  | none => envs

/-- The expiry part of the timer interval callback (lines 225-284),
entered when the computed remaining value is not positive: a pomodoro
expiry credits the active task and auto-starts the next break; a break
expiry returns the mode to idle while retaining the active task id. -/
def expire (now : Int) (w : World) : World :=
  let t := w.timer
  let tStopped := { t with isTimerActive := false }
  match t.focusMode, w.dailyPlan, t.activeFocusTaskId with
  | some .pomodoro, some plan, some tid =>
    if tid = "" then { w with timer := tStopped }
    else
      let updatedPlanTasks := plan.tasks.map (expiryTask tid)
      let finished := updatedPlanTasks.find? (fun tk => tk.id == tid && tk.completed)
      let envs2 := expiryEnvs finished w.environments
      let nextCycle := t.pomodoroCycle + 1
      let tNext : TimerState :=
        if Int.tmod nextCycle 4 = 0 then
          { tStopped with pomodoroCycle := nextCycle,
                          focusMode := some .long_break, timerValue := LONG_BREAK_TIME,
                          endTime := some (now + LONG_BREAK_TIME * 1000), isTimerActive := true }
        else
          { tStopped with pomodoroCycle := nextCycle,
                          focusMode := some .short_break, timerValue := SHORT_BREAK_TIME,
                          endTime := some (now + SHORT_BREAK_TIME * 1000), isTimerActive := true }
      { w with timer := tNext,
               dailyPlan := some { plan with tasks := updatedPlanTasks },
               environments := envs2 }
  | some fm, _, _ =>
    if fm.isBreak then { w with timer := { tStopped with focusMode := none } }
    else { w with timer := tStopped }
  | none, _, _ => { w with timer := tStopped }

/-- One execution of the timer interval callback body (lines 217-288):
recomputes the displayed value from the wall clock; triggers the expiry
branch when a count-down reaches zero. The callback only runs while the
interval is armed, that is while `isTimerActive`. -/
def tick (now : Int) (w : World) : World :=
  let t := w.timer
  if ¬t.isTimerActive then w
  else
    match t.focusMode with
    | none => w
    | some .stopwatch =>
      let elapsed := t.accumulated +
        (if truthyInt t.startTime then roundMsToSec (now - t.startTime.getD 0) else 0)
      { w with timer := { t with timerValue := elapsed } }
    | some _ =>
      let remaining := remainingSeconds t.timerValue t.endTime now
      if remaining ≤ 0 then expire now w
      else { w with timer := { t with timerValue := remaining } }

/-- The ref-arming part of the `isTimerActive` effect (lines 208-215),
run when the interval is (re)started. -/
def armTimer (now : Int) (w : World) : World :=
  let t := w.timer
  if ¬t.isTimerActive then w
  else
    match t.focusMode with
    | some .stopwatch =>
      if truthyInt t.startTime then w
      else { w with timer := { t with startTime := some now } }
    | some _ =>
      if truthyInt t.endTime then w
      else { w with timer := { t with endTime := some (now + t.timerValue * 1000) } }
    | none => w

/-- The `handleStartFocus(taskId)` intent (lines 312-337): stops a
previous session if one is active, then starts a pomodoro or stopwatch
session on the requested plan task. The task lookup and the unit test use
the daily plan captured at entry. -/
def handleStartFocus (taskId : String) (now : Int) (w : World) : World :=
  let w1 := if truthyStr w.timer.activeFocusTaskId then stopTimer true now w else w
  match w.dailyPlan with
  | none => w1
  | some plan =>
    match plan.tasks.find? (fun tk => tk.id == taskId) with
    | none => w1
    | some _ =>
      let t := w1.timer
      if plan.unit = .pomodoros then
        { w1 with timer := { t with activeFocusTaskId := some taskId,
                                    isTimerActive := true, focusMode := some .pomodoro,
                                    timerValue := POMODORO_TIME,
                                    endTime := some (now + POMODORO_TIME * 1000),
                                    startTime := none, accumulated := 0 } }
      else
        { w1 with timer := { t with activeFocusTaskId := some taskId,
                                    isTimerActive := true, focusMode := some .stopwatch,
                                    timerValue := 0, accumulated := 0,
                                    startTime := some now, endTime := none } }

/-- The `handlePauseFocus` intent (lines 339-343). -/
def handlePauseFocus (now : Int) (w : World) : World :=
  if w.timer.isTimerActive then stopTimer true now w else w

/-- The `handleResumeFocus` intent (lines 345-357): guarded by not
running, a non-null mode and a non-null `activeFocusTask` memo. -/
def handleResumeFocus (now : Int) (w : World) : World :=
  let t := w.timer
  if ¬t.isTimerActive ∧ t.focusMode.isSome ∧ (activeFocusTask w).isSome then
    if t.focusMode = some .stopwatch then
      { w with timer := { t with startTime := some now, isTimerActive := true } }
    else
      { w with timer := { t with endTime := some (now + t.timerValue * 1000),
                                 isTimerActive := true } }
  else w

/-- The field resets shared by `handleStopFocus`, the plan-deletion
teardown effect and the teardown in `handleUpdateTasks`. -/
def idleResetTimer (t : TimerState) : TimerState :=
  { t with startTime := none, endTime := none, accumulated := 0,
           activeFocusTaskId := none, focusMode := none, timerValue := 0 }

/-- The `handleStopFocus` intent (lines 359-368). -/
def handleStopFocus (now : Int) (w : World) : World :=
  let w1 := stopTimer true now w
  { w1 with timer := idleResetTimer w1.timer }

/-- The environment-list update of `handleCompleteFocusTask` (lines
381-392): mark the task completed in its owning environment list, if it
has one. -/
def completeEnvs (tk : Task) (envs : List Environment) : List Environment :=
  match tk.environmentId with
  | some eid =>
    if eid = "" then envs
    else envs.map (fun env =>
      if env.id == eid then
        { env with tasks := env.tasks.map (fun t =>
          if t.id == tk.id then { t with completed := true } else t) }
      else env)
  | none => envs

/-- The `handleCompleteFocusTask` intent (lines 370-400): flushes
stopwatch time, then marks the active task completed in the daily plan
(computed from the plan captured at entry, which overwrites the flush)
and in its owning environment list, then resets to idle. -/
def handleCompleteFocusTask (now : Int) (w : World) : World :=
  let plan0 := w.dailyPlan
  let task0 := activeFocusTask w
  let w1 := stopTimer (decide (w.timer.focusMode = some .stopwatch)) now w
  match plan0, task0 with
  | some plan, some tk =>
    let updatedPlanTasks := plan.tasks.map (fun t =>
      if t.id == tk.id then { t with completed := true } else t)
    { w1 with dailyPlan := some { plan with tasks := updatedPlanTasks },
              environments := completeEnvs tk w1.environments,
              timer := idleResetTimer w1.timer }
  | _, _ => w1

/-- The plan-deletion teardown effect (lines 297-310): when the active
task disappears from the daily plan, stop without saving, clear the
persisted snapshot and reset the session to idle. -/
def planRemovalTeardown (now : Int) (w : World) : World :=
  match w.timer.activeFocusTaskId, w.dailyPlan with
  | some tid, some plan =>
    if tid ≠ "" ∧ (findTask plan tid).isNone then
      let w1 := stopTimer false now w
      let w2 := { w1 with persisted := none }
      { w2 with timer := idleResetTimer w2.timer }
    else w
  | _, _ => w

/-- The `handleUpdateTasks(newTasks)` collaborator entry point (lines
408-435): tears the session down if the active task is gone from the new
environment task list, replaces the active environment's tasks, and syncs
`completed` flags into the daily plan captured at entry. -/
def handleUpdateTasks (newTasks : List Task) (now : Int) (w : World) : World :=
  let w1 :=
    match w.timer.activeFocusTaskId with
    | some tid =>
      if tid ≠ "" ∧ (newTasks.find? (fun tk => tk.id == tid)).isNone then
        let wa := stopTimer false now w
        let wb := { wa with persisted := none }
        { wb with timer := idleResetTimer wb.timer }
      else w
    | none => w
  let w2 :=
    match activeEnvironment w with
    | some env =>
      { w1 with environments := w1.environments.map (fun e =>
        if e.id == env.id then { env with tasks := newTasks } else e) }
    | none => w1
  match w.dailyPlan with
  | some plan =>
    { w2 with dailyPlan := some { plan with tasks := plan.tasks.map (fun pt =>
      match newTasks.find? (fun nt => nt.id == pt.id) with
      | none => pt
      | some m => { pt with completed := m.completed }) } }
  | none => w2

/-- The Skip Break button handler of `InProgressPanel` (line 616). -/
def skipBreak (w : World) : World :=
  { w with timer := { w.timer with isTimerActive := false, focusMode := none } }

/-- The snapshot written by the periodic persistence effect (lines
149-163). -/
def snapshotOf (t : TimerState) : Snapshot :=
  { focusMode := t.focusMode, activeFocusTaskId := t.activeFocusTaskId,
    pomodoroCycle := t.pomodoroCycle, timerValue := t.timerValue,
    isTimerActive := t.isTimerActive, endTime := t.endTime,
    startTime := t.startTime, accumulated := t.accumulated }

/-- One firing of the periodic persistence effect. -/
def persistEffect (w : World) : World :=
  { w with persisted := some (snapshotOf w.timer) }

/-- The mount-time restore effect (lines 166-197), applied to the initial
hook values: a missing snapshot restores to the initial state; otherwise
each field is restored, guarded by the JS truthiness and typeof checks of
the source. -/
def restoreState : Option Snapshot → TimerState
  | none => initialTimer
  | some p =>
    let t0 := initialTimer
    let t1 := if p.focusMode.isSome then { t0 with focusMode := p.focusMode } else t0
    let t2 := if truthyStr p.activeFocusTaskId then
        { t1 with activeFocusTaskId := p.activeFocusTaskId }
      else t1
    let t3 := { t2 with pomodoroCycle := p.pomodoroCycle }
    let t4 := { t3 with timerValue := p.timerValue }
    let t5 := { t4 with endTime := p.endTime, startTime := p.startTime,
                        accumulated := p.accumulated }
    if p.isTimerActive then { t5 with isTimerActive := true } else t5

/-- The restore effect acting on the whole world. -/
def restoreOp (w : World) : World :=
  { w with timer := restoreState w.persisted }

/-- Well-formedness of the daily plan as produced by the app: every task
id is a non-empty string (ids come from `Date.now().toString()`). -/
def WFPlan : Option DailyPlan → Prop
  | none => True
  | some p => ∀ tk ∈ p.tasks, tk.id ≠ ""

/-- One step of the session engine: a user intent, a timer tick, one of
the reactive effects, or an external collaborator replacing the task
stores (with app-generated, hence non-empty, plan task ids). -/
inductive Step : World → World → Prop
  | start (tid : String) (now : Int) (w : World) :
      Step w (handleStartFocus tid now w)
  | pause (now : Int) (w : World) : Step w (handlePauseFocus now w)
  | resume (now : Int) (w : World) : Step w (handleResumeFocus now w)
  | stop (now : Int) (w : World) : Step w (handleStopFocus now w)
  | complete (now : Int) (w : World) : Step w (handleCompleteFocusTask now w)
  | tickStep (now : Int) (w : World) : Step w (tick now w)
  | arm (now : Int) (w : World) : Step w (armTimer now w)
  | skip (w : World) : Step w (skipBreak w)
  | teardown (now : Int) (w : World) : Step w (planRemovalTeardown now w)
  | updTasks (newTasks : List Task) (now : Int) (w : World) :
      Step w (handleUpdateTasks newTasks now w)
  | persist (w : World) : Step w (persistEffect w)
  | restore (w : World) : Step w (restoreOp w)
  | collab (p : Option DailyPlan) (envs : List Environment)
      (aid : Option String) (w : World) : WFPlan p →
      Step w { w with dailyPlan := p, environments := envs,
                      activeEnvironmentId := aid }

/-- The reflexive-transitive closure of `Step`. -/
inductive Reaches : World → World → Prop
  | refl (w : World) : Reaches w w
  | tail {w₁ w₂ w₃ : World} : Reaches w₁ w₂ → Step w₂ w₃ → Reaches w₁ w₃

/-- A freshly mounted dashboard: initial hook values, no persisted
snapshot, and an app-generated plan. -/
def Init (w : World) : Prop :=
  w.timer = initialTimer ∧ w.persisted = none ∧ WFPlan w.dailyPlan

/-- The timer half of the session invariant: a non-idle mode always has a
truthy task reference. -/
def TInv (t : TimerState) : Prop :=
  t.focusMode.isSome = true → ∃ s, t.activeFocusTaskId = some s ∧ s ≠ ""

/-- The snapshot half of the session invariant. -/
def SInv : Option Snapshot → Prop
  | none => True
  | some p => p.focusMode.isSome = true →
      ∃ s, p.activeFocusTaskId = some s ∧ s ≠ ""

/-- The inductive invariant of the session state machine. -/
def Inv (w : World) : Prop :=
  TInv w.timer ∧ SInv w.persisted ∧ WFPlan w.dailyPlan

/-- Pointwise frame relation on task lists: every task whose id differs
from the active task reference is unchanged. -/
def framedTasks (aid : Option String) (ts ts' : List Task) : Prop :=
  List.Forall₂ (fun tk tk' => some tk.id ≠ aid → tk' = tk) ts ts'

/-- Frame relation on the daily plan: plan-level fields unchanged and
only the active task possibly modified. -/
def framedPlan (aid : Option String) : Option DailyPlan → Option DailyPlan → Prop
  | none, q => q = none
  | some _, none => False
  | some p, some p' =>
      p'.date = p.date ∧ p'.unit = p.unit ∧
      p'.completedPomodoros = p.completedPomodoros ∧
      framedTasks aid p.tasks p'.tasks

/-- Frame relation on the environment lists: environment ids unchanged
and only the active task possibly modified inside each list. -/
def framedEnvs (aid : Option String) (es es' : List Environment) : Prop :=
  List.Forall₂ (fun e e' => e'.id = e.id ∧ framedTasks aid e.tasks e'.tasks) es es'

/-- Frame relation on the whole world relative to the entry active task
reference. -/
def framedWorld (w w' : World) : Prop :=
  framedPlan w.timer.activeFocusTaskId w.dailyPlan w'.dailyPlan ∧
  framedEnvs w.timer.activeFocusTaskId w.environments w'.environments

/-- Pointwise preservation of the progress fields of a task list:
ids, `actualDuration` and `actualPomodoros` all unchanged. -/
def progressTasks (ts ts' : List Task) : Prop :=
  List.Forall₂ (fun tk tk' => tk'.id = tk.id ∧
    tk'.actualDuration = tk.actualDuration ∧
    tk'.actualPomodoros = tk.actualPomodoros) ts ts'

/-- Pointwise preservation of the progress fields of every environment
task list. -/
def progressEnvs (es es' : List Environment) : Prop :=
  List.Forall₂ (fun e e' => e'.id = e.id ∧ progressTasks e.tasks e'.tasks) es es'

/-! ### Concrete worlds used by the scenario theorems -/

/-- A plan task with the given id and quota and zero recorded progress,
living in environment e1. -/
def baseTask (i : String) (quota : Int) : Task :=
  { id := i, text := "task", completed := false, duration := quota,
    actualDuration := 0, actualPomodoros := 0, environmentId := some "e1" }

def planWith (u : PlanUnit) (ts : List Task) : DailyPlan :=
  { date := "2026-10-11", unit := u, tasks := ts, completedPomodoros := 0 }

def envWith (ts : List Task) : Environment :=
  { id := "e1", tasks := ts }

/-- A default plan used only to read fields of a computed optional plan
in closed scenario statements. -/
def emptyPlan : DailyPlan :=
  { date := "", unit := .minutes, tasks := [], completedPomodoros := 0 }

/-- A freshly mounted world holding one plan of the given unit whose
tasks also live in environment e1. -/
def idleWorld (u : PlanUnit) (ts : List Task) : World :=
  { timer := initialTimer, dailyPlan := some (planWith u ts),
    environments := [envWith ts], activeEnvironmentId := some "e1",
    persisted := none }

/-- Scenario world for the reconciler-delta claim: one minutes-quota task
in the plan and in its environment list. -/
def wC1 : World := idleWorld .minutes [baseTask "t1" 10]

/-- Scenario trace for the reconciler-delta claim: start a stopwatch
session at t = 1000s, tick at t = 1125s, pause at t = 1125s. -/
def wC1after : World :=
  handlePauseFocus 1125000 (tick 1125000 (handleStartFocus "t1" 1000000 wC1))

/-- Scenario world for the count-up flush claim. -/
def wC2 : World := idleWorld .minutes [baseTask "t1" 10]

/-- Scenario trace for the count-up flush claim: start a stopwatch
session at t = 1000s, pause at t = 1125s, resume at t = 1200s, stop at
t = 1400s, with a tick right before each flush. -/
def wC2after : World :=
  handleStopFocus 1400000 (tick 1400000 (handleResumeFocus 1200000
    (handlePauseFocus 1125000 (tick 1125000 (handleStartFocus "t1" 1000000 wC2)))))

/-- Scenario world for the pause write-back claim: a pomodoros-quota
task. -/
def wC3 : World := idleWorld .pomodoros [baseTask "t1" 2]

/-- Scenario trace for the pause write-back claim: start a pomodoro at
t = 1000s, tick at t = 1600s (600 s elapsed, 900 s remaining), pause. -/
def wC3after : World :=
  handlePauseFocus 1600000 (tick 1600000 (handleStartFocus "t1" 1000000 wC3))

/-- Scenario trace: the running pomodoro on t1 right before the pause of
the pause write-back scenario (600 s elapsed, 900 s remaining). -/
def wC3run : World :=
  tick 1600000 (handleStartFocus "t1" 1000000 wC3)

/-- Scenario world for the expiry claim: a pomodoros-quota task whose
quota is zero (ad-hoc tasks are created with `duration: 0`). -/
def wC4 : World := idleWorld .pomodoros [baseTask "t1" 0]

/-- Scenario trace for the expiry claim: start a pomodoro at t = 1000s
and tick at its expiry time t = 2500s. -/
def wC4after : World :=
  tick 2500000 (handleStartFocus "t1" 1000000 wC4)

/-- Scenario world for the witness of the amended expiry claim: a
pomodoros-quota task with quota 1 and a running pomodoro about to
expire. -/
def wC4w : World :=
  handleStartFocus "t1" 1000 (idleWorld .pomodoros [baseTask "t1" 1])

/-- Scenario world for the idle-iff-no-task claim. -/
def w0C6 : World := idleWorld .pomodoros [baseTask "t1" 5]

/-- Scenario trace for the idle-iff-no-task claim: start a pomodoro at
t = 1000s, tick at its expiry t = 2500s (auto-starts a 300 s short
break), tick at the break expiry t = 2800s. -/
def wBadC6 : World :=
  tick 2800000 (tick 2500000 (handleStartFocus "t1" 1000000 w0C6))

/-- Scenario world for the invalid-transition claim: two minutes-quota
tasks. -/
def wC8 : World := idleWorld .minutes [baseTask "t1" 10, baseTask "t2" 10]

/-- Scenario trace: a stopwatch session running on t1 for 60 s. -/
def wC8run : World := tick 1060000 (handleStartFocus "t1" 1000000 wC8)

/-- Scenario world for the forced-teardown claim: a session references
task t1 but t1 has been deleted from the plan by an external
collaborator. -/
def wC9 : World :=
  { timer := { activeFocusTaskId := some "t1", focusMode := some .stopwatch,
               timerValue := 60, isTimerActive := true, pomodoroCycle := 0,
               endTime := none, startTime := some 1000000, accumulated := 0 },
    dailyPlan := some (planWith .minutes [baseTask "t2" 10]),
    environments := [envWith [baseTask "t2" 10]],
    activeEnvironmentId := some "e1", persisted := none }

/-! ### General list helpers -/

theorem find?_map_preserve (l : List Task) (f : Task → Task) (tid : String)
    (hf : ∀ tk, (f tk).id = tk.id) :
    (l.map f).find? (fun tk => tk.id == tid)
      = (l.find? (fun tk => tk.id == tid)).map f := by
  induction l with
  | nil => rfl
  | cons a l ih =>
    simp only [List.map_cons, List.find?_cons, hf a]
    cases h : (a.id == tid) <;> simp [h, ih]

theorem forall₂_self {α : Type} (R : α → α → Prop) (h : ∀ x, R x x) :
    ∀ l : List α, List.Forall₂ R l l := by
  intro l
  induction l with
  | nil => exact List.Forall₂.nil
  | cons a l ih => exact List.Forall₂.cons (h a) ih

theorem forall₂_map_self {α : Type} (R : α → α → Prop) (f : α → α)
    (h : ∀ x, R x (f x)) : ∀ l : List α, List.Forall₂ R l (l.map f) := by
  intro l
  induction l with
  | nil => exact List.Forall₂.nil
  | cons a l ih => exact List.Forall₂.cons (h a) ih

theorem map_proj_of_preserve {α β : Type} (f : α → α) (g : α → β)
    (h : ∀ x, g (f x) = g x) (l : List α) : (l.map f).map g = l.map g := by
  induction l with
  | nil => rfl
  | cons a l ih => simp [h a, ih]

/-! ### Frame and progress helper lemmas -/

theorem framedTasks_refl (aid : Option String) (ts : List Task) :
    framedTasks aid ts ts :=
  forall₂_self _ (fun _ _ => rfl) ts

theorem framedTasks_map (aid : Option String) (f : Task → Task)
    (hf : ∀ tk, some tk.id ≠ aid → f tk = tk) (ts : List Task) :
    framedTasks aid ts (ts.map f) :=
  forall₂_map_self _ f (fun tk h => hf tk h) ts

theorem framedPlan_refl (aid : Option String) (p? : Option DailyPlan) :
    framedPlan aid p? p? := by
  cases p? with
  | none => rfl
  | some p => exact ⟨rfl, rfl, rfl, framedTasks_refl aid p.tasks⟩

theorem framedEnvs_refl (aid : Option String) (es : List Environment) :
    framedEnvs aid es es :=
  forall₂_self _ (fun e => ⟨rfl, framedTasks_refl aid e.tasks⟩) es

theorem framedEnvs_map (aid : Option String) (f : Environment → Environment)
    (hf : ∀ e, (f e).id = e.id ∧ framedTasks aid e.tasks (f e).tasks)
    (es : List Environment) : framedEnvs aid es (es.map f) :=
  forall₂_map_self _ f hf es

theorem progressTasks_refl (ts : List Task) : progressTasks ts ts :=
  forall₂_self _ (fun _ => ⟨rfl, rfl, rfl⟩) ts

theorem progressTasks_map (f : Task → Task)
    (hf : ∀ tk, (f tk).id = tk.id ∧ (f tk).actualDuration = tk.actualDuration ∧
      (f tk).actualPomodoros = tk.actualPomodoros) (ts : List Task) :
    progressTasks ts (ts.map f) :=
  forall₂_map_self _ f hf ts

theorem progressEnvs_refl (es : List Environment) : progressEnvs es es :=
  forall₂_self _ (fun e => ⟨rfl, progressTasks_refl e.tasks⟩) es

theorem progressEnvs_map (f : Environment → Environment)
    (hf : ∀ e, (f e).id = e.id ∧ progressTasks e.tasks (f e).tasks)
    (es : List Environment) : progressEnvs es (es.map f) :=
  forall₂_map_self _ f hf es

/-! ### Projection lemmas for the engine operations -/

theorem stopTimerFreeze_focusMode (now : Int) (t : TimerState) :
    (stopTimerFreeze now t).focusMode = t.focusMode := by
  unfold stopTimerFreeze
  split <;> [skip; split] <;> first | (split <;> rfl) | rfl

theorem stopTimerFreeze_taskId (now : Int) (t : TimerState) :
    (stopTimerFreeze now t).activeFocusTaskId = t.activeFocusTaskId := by
  unfold stopTimerFreeze
  split <;> [skip; split] <;> first | (split <;> rfl) | rfl

theorem stopTimer_timer (b : Bool) (now : Int) (w : World) :
    (stopTimer b now w).timer = stopTimerTimer now w.timer := rfl

theorem stopTimer_focusMode (b : Bool) (now : Int) (w : World) :
    (stopTimer b now w).timer.focusMode = w.timer.focusMode :=
  stopTimerFreeze_focusMode now w.timer

theorem stopTimer_taskId (b : Bool) (now : Int) (w : World) :
    (stopTimer b now w).timer.activeFocusTaskId = w.timer.activeFocusTaskId :=
  stopTimerFreeze_taskId now w.timer

theorem stopTimer_persisted (b : Bool) (now : Int) (w : World) :
    (stopTimer b now w).persisted = some (stopTimerSnap now w.timer) := rfl

theorem stopTimer_dailyPlan (b : Bool) (now : Int) (w : World) :
    (stopTimer b now w).dailyPlan = stopTimerPlan b w.timer w.dailyPlan := rfl

theorem stopTimer_environments (b : Bool) (now : Int) (w : World) :
    (stopTimer b now w).environments = w.environments := rfl

/-- Case analysis of the flush: either the plan is untouched, or the
active task id is truthy and the plan tasks are mapped with the
duration-credit update. -/
theorem stopTimerPlan_cases (b : Bool) (t : TimerState) (p? : Option DailyPlan) :
    stopTimerPlan b t p? = p? ∨
    ∃ plan tid, p? = some plan ∧ t.activeFocusTaskId = some tid ∧
      stopTimerPlan b t p? = some { plan with tasks := plan.tasks.map (fun tk =>
        if tk.id == tid then
          { tk with actualDuration := tk.actualDuration + flushDelta t }
        else tk) } := by
  unfold stopTimerPlan
  split
  · exact Or.inl rfl
  · split
    · split
      · exact Or.inr ⟨_, _, rfl, by first | rfl | assumption, rfl⟩
      · exact Or.inl rfl
    · exact Or.inl rfl

/-! ### Invariant preservation, one lemma per engine operation -/

theorem wfPlan_map (p : DailyPlan) (f : Task → Task)
    (hf : ∀ tk, (f tk).id = tk.id) (h : WFPlan (some p)) :
    WFPlan (some { p with tasks := p.tasks.map f }) := by
  intro tk htk
  simp only [List.mem_map] at htk
  obtain ⟨a, ha, rfl⟩ := htk
  rw [hf a]
  exact h a ha

theorem expiryTask_id (tid : String) (tk : Task) : (expiryTask tid tk).id = tk.id := by
  unfold expiryTask
  split <;> rfl

theorem stopTimerPlan_noSave (t : TimerState) (p? : Option DailyPlan) :
    stopTimerPlan false t p? = p? := by
  unfold stopTimerPlan
  split
  · rfl
  · rename_i hguard
    exact absurd (Or.inl (by simp)) hguard

theorem wfPlan_stopTimerPlan (b : Bool) (t : TimerState) (p? : Option DailyPlan)
    (h : WFPlan p?) : WFPlan (stopTimerPlan b t p?) := by
  rcases stopTimerPlan_cases b t p? with hc | ⟨plan, tid, hp, _, hc⟩
  · rwa [hc]
  · rw [hc]
    subst hp
    exact wfPlan_map plan _ (fun tk => by split <;> rfl) h

theorem inv_stopTimer (b : Bool) (now : Int) {w : World} (h : Inv w) :
    Inv (stopTimer b now w) := by
  obtain ⟨hT, hS, hP⟩ := h
  refine ⟨?_, ?_, ?_⟩
  · intro hm
    rw [stopTimer_focusMode] at hm
    rw [stopTimer_taskId]
    exact hT hm
  · rw [stopTimer_persisted]
    intro hm
    exact hT hm
  · rw [stopTimer_dailyPlan]
    exact wfPlan_stopTimerPlan b w.timer w.dailyPlan hP

theorem tInv_idleReset (t : TimerState) : TInv (idleResetTimer t) := by
  intro hm
  simp [idleResetTimer] at hm

theorem inv_start (tid : String) (now : Int) {w : World} (h : Inv w) :
    Inv (handleStartFocus tid now w) := by
  have hw1 : Inv (if truthyStr w.timer.activeFocusTaskId then stopTimer true now w else w) := by
    split
    · exact inv_stopTimer true now h
    · exact h
  simp only [handleStartFocus]
  split
  · exact hw1
  · rename_i plan hplan
    split
    · exact hw1
    · rename_i tk hfind
      have hmem := List.mem_of_find?_eq_some hfind
      have hpred := List.find?_some hfind
      simp only [beq_iff_eq] at hpred
      have htid : tid ≠ "" := by
        have hwf := h.2.2
        rw [hplan] at hwf
        exact hpred ▸ hwf tk hmem
      split
      · exact ⟨fun _ => ⟨tid, rfl, htid⟩, hw1.2.1, hw1.2.2⟩
      · exact ⟨fun _ => ⟨tid, rfl, htid⟩, hw1.2.1, hw1.2.2⟩

theorem inv_pause (now : Int) {w : World} (h : Inv w) :
    Inv (handlePauseFocus now w) := by
  simp only [handlePauseFocus]
  split
  · exact inv_stopTimer true now h
  · exact h

theorem inv_resume (now : Int) {w : World} (h : Inv w) :
    Inv (handleResumeFocus now w) := by
  simp only [handleResumeFocus]
  split
  · split
    · exact ⟨fun hm => h.1 hm, h.2.1, h.2.2⟩
    · exact ⟨fun hm => h.1 hm, h.2.1, h.2.2⟩
  · exact h

theorem inv_stopFocus (now : Int) {w : World} (h : Inv w) :
    Inv (handleStopFocus now w) := by
  have h1 := inv_stopTimer true now h
  exact ⟨tInv_idleReset _, h1.2.1, h1.2.2⟩

theorem inv_complete (now : Int) {w : World} (h : Inv w) :
    Inv (handleCompleteFocusTask now w) := by
  have h1 := inv_stopTimer (decide (w.timer.focusMode = some .stopwatch)) now h
  simp only [handleCompleteFocusTask]
  split
  · rename_i plan tk hplan htask
    have hwf : WFPlan (some { plan with tasks := plan.tasks.map (fun t =>
        if t.id == tk.id then { t with completed := true } else t) }) := by
      refine wfPlan_map plan _ (fun t => by split <;> rfl) ?_
      rw [← hplan]
      exact h.2.2
    exact ⟨tInv_idleReset _, h1.2.1, hwf⟩
  · exact h1

theorem inv_expire (now : Int) {w : World} (h : Inv w) : Inv (expire now w) := by
  simp only [expire]
  split
  · rename_i plan tid hfm hplan htid
    split
    · exact ⟨fun hm => h.1 hm, h.2.1, h.2.2⟩
    · rename_i hne
      have hwf : WFPlan (some { plan with tasks := plan.tasks.map (expiryTask tid) }) := by
        refine wfPlan_map plan _ (expiryTask_id tid) ?_
        rw [← hplan]
        exact h.2.2
      refine ⟨?_, h.2.1, hwf⟩
      intro _
      split
      · exact ⟨tid, htid ▸ rfl, hne⟩
      · exact ⟨tid, htid ▸ rfl, hne⟩
  · split
    · exact ⟨fun hm => by simp at hm, h.2.1, h.2.2⟩
    · exact ⟨fun hm => h.1 hm, h.2.1, h.2.2⟩
  · exact ⟨fun hm => h.1 hm, h.2.1, h.2.2⟩

theorem inv_tick (now : Int) {w : World} (h : Inv w) : Inv (tick now w) := by
  simp only [tick]
  split
  · exact h
  · split
    · exact h
    · exact ⟨fun hm => h.1 hm, h.2.1, h.2.2⟩
    · split
      · exact inv_expire now h
      · exact ⟨fun hm => h.1 hm, h.2.1, h.2.2⟩

theorem inv_arm (now : Int) {w : World} (h : Inv w) : Inv (armTimer now w) := by
  simp only [armTimer]
  split
  · exact h
  · split
    · split
      · exact h
      · exact ⟨fun hm => h.1 hm, h.2.1, h.2.2⟩
    · split
      · exact h
      · exact ⟨fun hm => h.1 hm, h.2.1, h.2.2⟩
    · exact h

theorem inv_skip {w : World} (h : Inv w) : Inv (skipBreak w) := by
  refine ⟨?_, h.2.1, h.2.2⟩
  intro hm
  simp [skipBreak] at hm

theorem inv_teardown (now : Int) {w : World} (h : Inv w) :
    Inv (planRemovalTeardown now w) := by
  simp only [planRemovalTeardown]
  split
  · split
    · refine ⟨tInv_idleReset _, trivial, ?_⟩
      show WFPlan (stopTimerPlan false w.timer w.dailyPlan)
      rw [stopTimerPlan_noSave]
      exact h.2.2
    · exact h
  · exact h

theorem inv_updTasks (newTasks : List Task) (now : Int) {w : World} (h : Inv w) :
    Inv (handleUpdateTasks newTasks now w) := by
  have hsync : ∀ p : DailyPlan, WFPlan (some p) →
      WFPlan (some { p with tasks := p.tasks.map (fun pt =>
        match newTasks.find? (fun nt => nt.id == pt.id) with
        | none => pt
        | some m => { pt with completed := m.completed }) }) := by
    intro p hp
    refine wfPlan_map p _ (fun pt => ?_) hp
    split <;> rfl
  simp only [handleUpdateTasks]
  split
  · rename_i plan hplan
    have hwf := hsync plan (by rw [← hplan]; exact h.2.2)
    split <;> split <;> try split
    all_goals
      first
        | exact ⟨tInv_idleReset _, trivial, hwf⟩
        | exact ⟨h.1, h.2.1, hwf⟩
  · split <;> split <;> try split
    all_goals
      first
        | (refine ⟨tInv_idleReset _, trivial, ?_⟩
           show WFPlan (stopTimerPlan false w.timer w.dailyPlan)
           rw [stopTimerPlan_noSave]
           exact h.2.2)
        | exact ⟨h.1, h.2.1, h.2.2⟩

theorem inv_persist {w : World} (h : Inv w) : Inv (persistEffect w) :=
  ⟨h.1, fun hm => h.1 hm, h.2.2⟩

theorem restoreState_focusMode_of_none (p : Snapshot) (hf : p.focusMode.isSome = false) :
    (restoreState (some p)).focusMode = none := by
  simp only [restoreState, hf, Bool.false_eq_true, if_false]
  split <;> split <;> rfl

theorem restoreState_fields_of_some (p : Snapshot) (hf : p.focusMode.isSome = true)
    (s : String) (hs : p.activeFocusTaskId = some s) (hs' : s ≠ "") :
    (restoreState (some p)).activeFocusTaskId = some s := by
  have htr : truthyStr (some s) = true := by
    simp [truthyStr, hs']
  simp only [restoreState, hf, hs, htr, eq_self_iff_true, if_true]
  split <;> rfl

theorem inv_restore {w : World} (h : Inv w) : Inv (restoreOp w) := by
  refine ⟨?_, h.2.1, h.2.2⟩
  show TInv (restoreState w.persisted)
  cases hp : w.persisted with
  | none =>
    intro hm
    simp [restoreState, initialTimer] at hm
  | some p =>
    have hS : SInv (some p) := by rw [← hp]; exact h.2.1
    intro hm
    cases hf : p.focusMode.isSome with
    | false =>
      rw [restoreState_focusMode_of_none p hf] at hm
      simp at hm
    | true =>
      obtain ⟨s, hs, hs'⟩ := hS hf
      exact ⟨s, restoreState_fields_of_some p hf s hs hs', hs'⟩

/-- Every engine step preserves the session invariant. -/
theorem inv_step {w w' : World} (hs : Step w w') (h : Inv w) : Inv w' := by
  cases hs with
  | start tid now w => exact inv_start tid now h
  | pause now w => exact inv_pause now h
  | resume now w => exact inv_resume now h
  | stop now w => exact inv_stopFocus now h
  | complete now w => exact inv_complete now h
  | tickStep now w => exact inv_tick now h
  | arm now w => exact inv_arm now h
  | skip w => exact inv_skip h
  | teardown now w => exact inv_teardown now h
  | updTasks newTasks now w => exact inv_updTasks newTasks now h
  | persist w => exact inv_persist h
  | restore w => exact inv_restore h
  | collab p envs aid w hwf => exact ⟨h.1, h.2.1, hwf⟩

theorem inv_init {w : World} (h : Init w) : Inv w := by
  obtain ⟨ht, hp, hwf⟩ := h
  refine ⟨?_, ?_, hwf⟩
  · rw [ht]
    intro hm
    simp [initialTimer] at hm
  · rw [hp]
    trivial

/-- The session invariant holds in every reachable state. -/
theorem inv_reaches {w w' : World} (h : Init w) (hr : Reaches w w') : Inv w' := by
  induction hr with
  | refl => exact inv_init h
  | tail _ hs ih => exact inv_step hs ih

/-! ### Flush characterization helpers -/

theorem flushDelta_break (t : TimerState)
    (h : t.focusMode = some .short_break ∨ t.focusMode = some .long_break) :
    flushDelta t = 0 := by
  rcases h with h | h <;> simp only [flushDelta, h] <;> rfl

theorem flushDelta_pomodoro (t : TimerState) (h : t.focusMode = some .pomodoro) :
    flushDelta t = Int.fdiv (POMODORO_TIME - t.timerValue) 60 := by
  simp only [flushDelta, h]
  rfl

theorem stopTimerPlan_nonpos (b : Bool) (t : TimerState) (p? : Option DailyPlan)
    (h : ¬ 0 < flushDelta t) : stopTimerPlan b t p? = p? := by
  unfold stopTimerPlan
  by_cases hg : (¬b = true ∨ p?.isNone = true ∨
      ¬truthyStr t.activeFocusTaskId = true ∨ t.focusMode.isNone = true)
  · rw [if_pos hg]
  · rw [if_neg hg, if_neg h]

theorem stopTimerPlan_poms (b : Bool) (t : TimerState) (p? : Option DailyPlan) :
    Option.map (fun p => p.tasks.map Task.actualPomodoros) (stopTimerPlan b t p?)
      = Option.map (fun p => p.tasks.map Task.actualPomodoros) p? := by
  rcases stopTimerPlan_cases b t p? with hc | ⟨plan, tid, hp, _, hc⟩
  · rw [hc]
  · rw [hc, hp]
    simp only [Option.map_some']
    congr 1
    exact map_proj_of_preserve _ _ (fun tk => by split <;> rfl) _

theorem stopTimerPlan_flush (t : TimerState) (plan : DailyPlan) (tid : String)
    (htid : t.activeFocusTaskId = some tid) (htid' : tid ≠ "")
    (hfm : t.focusMode.isSome = true) (hδ : 0 < flushDelta t) :
    stopTimerPlan true t (some plan) = some { plan with tasks := plan.tasks.map (fun tk =>
      if tk.id == tid then { tk with actualDuration := tk.actualDuration + flushDelta t }
      else tk) } := by
  have hguard : ¬(¬(true : Bool) = true ∨ (some plan).isNone = true ∨
      ¬truthyStr t.activeFocusTaskId = true ∨ t.focusMode.isNone = true) := by
    intro hc
    rcases hc with hc | hc | hc | hc
    · exact hc rfl
    · simp at hc
    · exact hc (by simp [truthyStr, htid, htid'])
    · rw [Option.isNone_iff_eq_none] at hc
      rw [hc] at hfm
      simp at hfm
  unfold stopTimerPlan
  rw [if_neg hguard, if_pos hδ, htid]

/-! ### Frame helpers for the task-store writes -/

theorem tick_taskId (now : Int) (w : World) :
    (tick now w).timer.activeFocusTaskId = w.timer.activeFocusTaskId := by
  simp only [tick]
  split
  · rfl
  · split
    · rfl
    · rfl
    · split
      · simp only [expire]
        split
        · split
          · rfl
          · split <;> rfl
        · split <;> rfl
        · rfl
      · rfl

theorem armTimer_taskId (now : Int) (w : World) :
    (armTimer now w).timer.activeFocusTaskId = w.timer.activeFocusTaskId := by
  simp only [armTimer]
  split
  · rfl
  · split
    · split <;> rfl
    · split <;> rfl
    · rfl

theorem activeFocusTask_id {w : World} {tk : Task} (h : activeFocusTask w = some tk) :
    w.timer.activeFocusTaskId = some tk.id := by
  unfold activeFocusTask at h
  split at h
  · rename_i plan tid heq1 heq2
    split at h
    · cases h
    · have hp := List.find?_some h
      simp only [beq_iff_eq] at hp
      rw [heq2, hp]
  · cases h

theorem framedEnvs_expiry (tid : String) (finished : Option Task)
    (hfin : ∀ f, finished = some f → f.id = tid) (envs : List Environment) :
    framedEnvs (some tid) envs (expiryEnvs finished envs) := by
  unfold expiryEnvs
  split
  · rename_i f
    have hfid := hfin f rfl
    split
    · split
      · exact framedEnvs_refl _ _
      · refine framedEnvs_map _ _ (fun e => ⟨?_, ?_⟩) _
        · split <;> rfl
        · split
          · refine framedTasks_map _ _ (fun t h => ?_) _
            split
            · rename_i hbeq
              rw [beq_iff_eq] at hbeq
              exact absurd (congrArg some (hfid ▸ hbeq)) h
            · rfl
          · exact framedTasks_refl _ _
    · exact framedEnvs_refl _ _
  · exact framedEnvs_refl _ _

theorem progressEnvs_expiry (finished : Option Task) (envs : List Environment) :
    progressEnvs envs (expiryEnvs finished envs) := by
  unfold expiryEnvs
  split
  · split
    · split
      · exact progressEnvs_refl _
      · refine progressEnvs_map _ (fun e => ⟨?_, ?_⟩) _
        · split <;> rfl
        · split
          · refine progressTasks_map _ (fun t => ?_) _
            refine ⟨?_, ?_, ?_⟩ <;> split <;> rfl
          · exact progressTasks_refl _
    · exact progressEnvs_refl _
  · exact progressEnvs_refl _

theorem framedEnvs_complete (tk : Task) (envs : List Environment) :
    framedEnvs (some tk.id) envs (completeEnvs tk envs) := by
  unfold completeEnvs
  split
  · split
    · exact framedEnvs_refl _ _
    · refine framedEnvs_map _ _ (fun e => ⟨?_, ?_⟩) _
      · split <;> rfl
      · split
        · refine framedTasks_map _ _ (fun t h => ?_) _
          split
          · rename_i hbeq
            exact absurd (congrArg some (by rwa [beq_iff_eq] at hbeq)) h
          · rfl
        · exact framedTasks_refl _ _
  · exact framedEnvs_refl _ _

theorem progressEnvs_complete (tk : Task) (envs : List Environment) :
    progressEnvs envs (completeEnvs tk envs) := by
  unfold completeEnvs
  split
  · split
    · exact progressEnvs_refl _
    · refine progressEnvs_map _ (fun e => ⟨?_, ?_⟩) _
      · split <;> rfl
      · split
        · refine progressTasks_map _ (fun t => ?_) _
          refine ⟨?_, ?_, ?_⟩ <;> split <;> rfl
        · exact progressTasks_refl _
  · exact progressEnvs_refl _

theorem framed_stopTimer (b : Bool) (now : Int) (w : World) :
    framedWorld w (stopTimer b now w) := by
  constructor
  · rw [stopTimer_dailyPlan]
    rcases stopTimerPlan_cases b w.timer w.dailyPlan with hc | ⟨plan, tid, hp, htid, hc⟩
    · rw [hc]
      exact framedPlan_refl _ _
    · rw [hc, hp, htid]
      refine ⟨rfl, rfl, rfl, framedTasks_map _ _ (fun t h => ?_) _⟩
      split
      · rename_i hbeq
        exact absurd (congrArg some (by rwa [beq_iff_eq] at hbeq)) h
      · rfl
  · exact framedEnvs_refl _ _

theorem framed_tick (now : Int) (w : World) : framedWorld w (tick now w) := by
  simp only [tick]
  split
  · exact ⟨framedPlan_refl _ _, framedEnvs_refl _ _⟩
  · split
    · exact ⟨framedPlan_refl _ _, framedEnvs_refl _ _⟩
    · exact ⟨framedPlan_refl _ _, framedEnvs_refl _ _⟩
    · split
      · simp only [expire]
        split
        · rename_i plan tid hfm hplan htid
          split
          · exact ⟨framedPlan_refl _ _, framedEnvs_refl _ _⟩
          · constructor
            · show framedPlan w.timer.activeFocusTaskId w.dailyPlan
                (some { plan with tasks := plan.tasks.map (expiryTask tid) })
              rw [hplan, htid]
              refine ⟨rfl, rfl, rfl, framedTasks_map _ _ (fun t h => ?_) _⟩
              simp only [expiryTask]
              split
              · rename_i hbeq
                exact absurd (congrArg some (by rwa [beq_iff_eq] at hbeq)) h
              · rfl
            · show framedEnvs w.timer.activeFocusTaskId w.environments
                (expiryEnvs ((plan.tasks.map (expiryTask tid)).find?
                  (fun tk => tk.id == tid && tk.completed)) w.environments)
              rw [htid]
              refine framedEnvs_expiry tid _ (fun f hf => ?_) _
              have hp := List.find?_some hf
              simp only [Bool.and_eq_true, beq_iff_eq] at hp
              exact hp.1
        · split
          · exact ⟨framedPlan_refl _ _, framedEnvs_refl _ _⟩
          · exact ⟨framedPlan_refl _ _, framedEnvs_refl _ _⟩
        · exact ⟨framedPlan_refl _ _, framedEnvs_refl _ _⟩
      · exact ⟨framedPlan_refl _ _, framedEnvs_refl _ _⟩

theorem framed_complete (now : Int) (w : World) :
    framedWorld w (handleCompleteFocusTask now w) := by
  simp only [handleCompleteFocusTask]
  split
  · rename_i plan tk hplan htask
    have hid := activeFocusTask_id htask
    constructor
    · show framedPlan w.timer.activeFocusTaskId w.dailyPlan
        (some { plan with tasks := plan.tasks.map (fun t =>
          if t.id == tk.id then { t with completed := true } else t) })
      rw [hid, hplan]
      refine ⟨rfl, rfl, rfl, framedTasks_map _ _ (fun t h => ?_) _⟩
      split
      · rename_i hbeq
        exact absurd (congrArg some (by rwa [beq_iff_eq] at hbeq)) h
      · rfl
    · show framedEnvs w.timer.activeFocusTaskId w.environments
        (completeEnvs tk w.environments)
      rw [hid]
      exact framedEnvs_complete tk _
  · exact framed_stopTimer _ now w

theorem progress_tick (now : Int) (w : World) :
    progressEnvs w.environments (tick now w).environments := by
  simp only [tick]
  split
  · exact progressEnvs_refl _
  · split
    · exact progressEnvs_refl _
    · exact progressEnvs_refl _
    · split
      · simp only [expire]
        split
        · rename_i plan tid hfm hplan htid
          split
          · exact progressEnvs_refl _
          · show progressEnvs w.environments
              (expiryEnvs ((plan.tasks.map (expiryTask tid)).find?
                (fun tk => tk.id == tid && tk.completed)) w.environments)
            exact progressEnvs_expiry _ _
        · split
          · exact progressEnvs_refl _
          · exact progressEnvs_refl _
        · exact progressEnvs_refl _
      · exact progressEnvs_refl _

theorem progress_complete (now : Int) (w : World) :
    progressEnvs w.environments (handleCompleteFocusTask now w).environments := by
  simp only [handleCompleteFocusTask]
  split
  · rename_i plan tk hplan htask
    show progressEnvs w.environments (completeEnvs tk w.environments)
    exact progressEnvs_complete tk _
  · exact progressEnvs_refl _

/-! ### Claim theorems -/

/-- Claim C7: the Duration Engine's remaining-time computation returns
`max 0 (round ((endsAt - now) / 1000))` when an end timestamp is present
(a genuine epoch-millisecond timestamp, hence positive), and returns the
frozen `frozenRemaining` value when the timestamp is null (paused). -/
theorem C7_remainingSeconds (frozenRemaining now et : Int) (het : 0 < et) :
    remainingSeconds frozenRemaining (some et) now
      = max 0 (roundMsToSec (et - now)) ∧
    remainingSeconds frozenRemaining none now = frozenRemaining := by
  constructor
  · have ht : truthyInt (some et) = true := by
      simp only [truthyInt, bne_iff_ne, ne_eq, decide_not]
      omega
    simp [remainingSeconds, ht]
  · rfl

/-- Witness for C7 at a concrete positive end timestamp. -/
theorem C7_witness :
    (0 : Int) < 5000 ∧
    (remainingSeconds 7 (some 5000) 2000 = max 0 (roundMsToSec (5000 - 2000)) ∧
     remainingSeconds 7 none 2000 = 7) :=
  ⟨by decide, C7_remainingSeconds 7 2000 5000 (by decide)⟩

/-- Claim C5: restoring the persisted snapshot of any valid session state
(valid meaning the task reference, when present, is a non-empty app
generated id) reproduces the state exactly; in particular a snapshot
taken while running restores running with its original absolute
timestamps. -/
theorem C5_snapshot_roundtrip (t : TimerState)
    (hid : t.activeFocusTaskId = none ∨
      ∃ s, t.activeFocusTaskId = some s ∧ s ≠ "") :
    restoreState (some (snapshotOf t)) = t := by
  have hTask : truthyStr t.activeFocusTaskId = true ∨
      (truthyStr t.activeFocusTaskId = false ∧ t.activeFocusTaskId = none) := by
    rcases hid with h | ⟨s, hs, hs'⟩
    · exact Or.inr ⟨by simp [h, truthyStr], h⟩
    · exact Or.inl (by simp [hs, truthyStr, hs'])
  simp only [restoreState, snapshotOf]
  rcases hTask with ht | ⟨ht, ht2⟩ <;>
    cases hf : t.focusMode <;> cases hact : t.isTimerActive <;>
      simp_all [initialTimer] <;> (try rw [← ht2]) <;> rw [← hf, ← hact]

/-- Witness for C5: a running pomodoro state round-trips through the
snapshot. -/
theorem C5_witness :
    restoreState (some (snapshotOf
      { activeFocusTaskId := some "t1", focusMode := some FocusMode.pomodoro,
        timerValue := 900, isTimerActive := true, pomodoroCycle := 1,
        endTime := some 2500000, startTime := none, accumulated := 0 }))
    = { activeFocusTaskId := some "t1", focusMode := some FocusMode.pomodoro,
        timerValue := 900, isTimerActive := true, pomodoroCycle := 1,
        endTime := some 2500000, startTime := none, accumulated := 0 } :=
  C5_snapshot_roundtrip _ (Or.inr ⟨"t1", rfl, by decide⟩)

/-- Counterexample to claim C1: starting a stopwatch session on task t1
at t = 1000 s and pausing at t = 1125 s credits 2 minutes to the task's
daily-plan copy but leaves its environment-list copy at 0; the two copies
are not kept equal by the flush. -/
theorem C1_counterexample :
    ((wC1after.dailyPlan.getD emptyPlan).tasks.map Task.actualDuration = [2]) ∧
    (wC1after.environments.map (fun e => e.tasks.map Task.actualDuration) = [[0]]) ∧
    ((2 : Int) ≠ 0) := by decide

/-- Counterexample supporting C2 (code bug): a stopwatch session started
at t = 1000 s, paused at t = 1125 s (credits floor 125/60 = 2 minutes),
resumed at t = 1200 s and stopped at t = 1400 s credits
floor 325/60 = 5 further minutes, for a total of 7 minutes recorded from
only 325 seconds of focus; the claimed total is 2 + 3 = 5. -/
theorem C2_flush_overcounts :
    ((wC2after.dailyPlan.getD emptyPlan).tasks.map Task.actualDuration = [7]) ∧
    ((7 : Int) ≠ 2 + 3) := by decide

/-- Counterexample to claim C3: pausing a running count-down focus
(pomodoro) session at 600 s elapsed (900 s remaining) credits
floor 600/60 = 10 minutes to the task's `actualDuration`, so pause is
not write-back-free for count-down sessions. -/
theorem C3_counterexample :
    ((wC3after.dailyPlan.getD emptyPlan).tasks.map Task.actualDuration = [10]) ∧
    ((wC3after.dailyPlan.getD emptyPlan).tasks.map Task.actualPomodoros = [0]) ∧
    ((10 : Int) ≠ 0) := by decide

/-- Counterexample to claim C4: when a pomodoro expires on a task whose
quota (`duration`) is 0, the code leaves `completed` unchanged (false)
even though `actualPomodoros` (1) is at least the quota (0). -/
theorem C4_counterexample :
    ((wC4after.dailyPlan.getD emptyPlan).tasks.map
      (fun t => (t.actualPomodoros, t.duration, t.completed)) = [(1, 0, false)]) ∧
    ((0 : Int) ≤ 1) := by decide

/-- Counterexample to claim C8: calling start on task t2 while a
stopwatch session is running on task t1 is not a no-op: it flushes one
minute of progress into t1 and starts a session on t2. -/
theorem C8_counterexample :
    handleStartFocus "t2" 1060000 wC8run ≠ wC8run ∧
    (handleStartFocus "t2" 1060000 wC8run).timer.activeFocusTaskId = some "t2" ∧
    ((handleStartFocus "t2" 1060000 wC8run).dailyPlan.getD emptyPlan).tasks.map
      Task.actualDuration = [1, 0] := by decide

/-- Claim C1 (amended): a progress write-back applies its delta only to
the daily-plan copy of the task: `stopTimer`, a timer tick (including a
pomodoro expiry) and `handleCompleteFocusTask` never change any
environment-list copy's `actualDuration` or `actualPomodoros` (the
environment copy only ever has `completed` set), so the two records are
not kept equal by a flush. -/
theorem C1_flush_plan_only (w : World) (b : Bool) (now : Int) :
    progressEnvs w.environments (stopTimer b now w).environments ∧
    progressEnvs w.environments (tick now w).environments ∧
    progressEnvs w.environments (handleCompleteFocusTask now w).environments :=
  ⟨progressEnvs_refl _, progress_tick now w, progress_complete now w⟩

/-- Claim C3 (amended): pausing a running break leaves both task stores
unchanged; but pausing a running count-down focus (pomodoro) session
does trigger a write-back: it credits floor((1500 - displayed
remaining) / 60) minutes, when positive, to the active task's plan-copy
`actualDuration`, while every `actualPomodoros` and the environment
lists stay unchanged. -/
theorem C3_pause_writeback (w : World) (now : Int) :
    ((w.timer.focusMode = some FocusMode.short_break ∨
      w.timer.focusMode = some FocusMode.long_break) →
      (handlePauseFocus now w).dailyPlan = w.dailyPlan ∧
      (handlePauseFocus now w).environments = w.environments) ∧
    (w.timer.focusMode = some FocusMode.pomodoro →
      (handlePauseFocus now w).environments = w.environments ∧
      Option.map (fun p => p.tasks.map Task.actualPomodoros)
          (handlePauseFocus now w).dailyPlan
        = Option.map (fun p => p.tasks.map Task.actualPomodoros) w.dailyPlan ∧
      (∀ plan tid tk, w.timer.isTimerActive = true → w.dailyPlan = some plan →
        w.timer.activeFocusTaskId = some tid → tid ≠ "" →
        findTask plan tid = some tk →
        0 < Int.fdiv (POMODORO_TIME - w.timer.timerValue) 60 →
        ∃ plan2, (handlePauseFocus now w).dailyPlan = some plan2 ∧
          findTask plan2 tid = some { tk with
            actualDuration :=
              tk.actualDuration + Int.fdiv (POMODORO_TIME - w.timer.timerValue) 60 })) := by
  constructor
  · intro hbr
    by_cases hrun : w.timer.isTimerActive = true
    · simp only [handlePauseFocus, if_pos hrun]
      refine ⟨?_, rfl⟩
      rw [stopTimer_dailyPlan]
      apply stopTimerPlan_nonpos
      rw [flushDelta_break w.timer hbr]
      exact lt_irrefl 0
    · simp only [handlePauseFocus, if_neg hrun]
      exact ⟨trivial, trivial⟩
  · intro hfm
    by_cases hrun : w.timer.isTimerActive = true
    · simp only [handlePauseFocus, if_pos hrun]
      refine ⟨rfl, ?_, ?_⟩
      · rw [stopTimer_dailyPlan]
        exact stopTimerPlan_poms _ _ _
      · intro plan tid tk _ hplan htid htid' hfind hδ
        have hδ' : 0 < flushDelta w.timer := by
          rwa [flushDelta_pomodoro w.timer hfm]
        rw [stopTimer_dailyPlan, hplan,
          stopTimerPlan_flush w.timer plan tid htid htid' (by rw [hfm]; rfl) hδ']
        refine ⟨_, rfl, ?_⟩
        have hfind' : plan.tasks.find? (fun tk' => tk'.id == tid) = some tk := hfind
        have hpred := List.find?_some hfind'
        show (plan.tasks.map (fun tk' =>
            if tk'.id == tid then
              { tk' with actualDuration := tk'.actualDuration + flushDelta w.timer }
            else tk')).find? (fun tk' => tk'.id == tid)
          = some { tk with actualDuration :=
              tk.actualDuration + Int.fdiv (POMODORO_TIME - w.timer.timerValue) 60 }
        rw [find?_map_preserve _ _ _ (fun tk' => by split <;> rfl), hfind',
          Option.map_some', if_pos hpred, flushDelta_pomodoro w.timer hfm]
    · simp only [handlePauseFocus, if_neg hrun]
      refine ⟨trivial, trivial, ?_⟩
      intro plan tid tk hrun' _ _ _ _ _
      exact absurd hrun' hrun

/-- Witness for C3: pausing the running pomodoro of the scenario trace
at t = 1600 s credits 10 minutes to the task's plan copy. -/
theorem C3_witness :
    wC3run.timer.focusMode = some FocusMode.pomodoro ∧
    ∃ plan2, (handlePauseFocus 1600000 wC3run).dailyPlan = some plan2 ∧
      findTask plan2 "t1" = some { baseTask "t1" 2 with
        actualDuration :=
          (baseTask "t1" 2).actualDuration
            + Int.fdiv (POMODORO_TIME - wC3run.timer.timerValue) 60 } := by
  refine ⟨by decide, ?_⟩
  exact ((C3_pause_writeback wC3run 1600000).2 (by decide)).2.2
    (planWith .pomodoros [baseTask "t1" 2]) "t1" (baseTask "t1" 2)
    (by decide) (by decide) (by decide) (by decide) (by decide) (by decide)

/-- Claim C4 (amended): when a running count-down focus interval's
remaining time reaches 0 at a tick, exactly one expiry runs: the focused
task's actualPomodoros increases by 1 and actualDuration by 25 minutes;
the task is marked completed if its quota is positive and the new
actualPomodoros meets it (a zero-quota task keeps its previous completed
flag); cycleCount increments by 1; and the mode transitions to a 900 s
long break when the new count is a multiple of 4, else a 300 s short
break, auto-started running with a fresh end timestamp. -/
theorem C4_pomodoro_expiry (w : World) (now et : Int) (plan : DailyPlan)
    (tid : String) (tk : Task)
    (hact : w.timer.isTimerActive = true)
    (hfm : w.timer.focusMode = some FocusMode.pomodoro)
    (htid : w.timer.activeFocusTaskId = some tid) (htid' : tid ≠ "")
    (hplan : w.dailyPlan = some plan)
    (hend : w.timer.endTime = some et) (het : et ≠ 0)
    (hexp : roundMsToSec (et - now) ≤ 0)
    (hfind : findTask plan tid = some tk) :
    (∃ plan2, (tick now w).dailyPlan = some plan2 ∧
      findTask plan2 tid = some { tk with
        actualDuration := tk.actualDuration + 25,
        actualPomodoros := tk.actualPomodoros + 1,
        completed := if 0 < tk.duration then
            decide (tk.duration ≤ tk.actualPomodoros + 1)
          else tk.completed }) ∧
    (tick now w).timer.pomodoroCycle = w.timer.pomodoroCycle + 1 ∧
    (tick now w).timer.isTimerActive = true ∧
    (tick now w).timer.activeFocusTaskId = some tid ∧
    (if Int.tmod (w.timer.pomodoroCycle + 1) 4 = 0 then
       (tick now w).timer.focusMode = some FocusMode.long_break ∧
       (tick now w).timer.timerValue = LONG_BREAK_TIME ∧
       (tick now w).timer.endTime = some (now + LONG_BREAK_TIME * 1000)
     else
       (tick now w).timer.focusMode = some FocusMode.short_break ∧
       (tick now w).timer.timerValue = SHORT_BREAK_TIME ∧
       (tick now w).timer.endTime = some (now + SHORT_BREAK_TIME * 1000)) := by
  have hrem : remainingSeconds w.timer.timerValue w.timer.endTime now ≤ 0 := by
    rw [hend]
    have ht : truthyInt (some et) = true := by simp [truthyInt, het]
    simp only [remainingSeconds, ht, if_true, Option.getD_some]
    exact max_le le_rfl hexp
  have htick : tick now w = expire now w := by
    simp only [tick, hact, hfm]
    simp [hrem]
  have hfind' : plan.tasks.find? (fun tk' => tk'.id == tid) = some tk := hfind
  have hpred := List.find?_some hfind'
  have hplanPart : findTask { plan with tasks := plan.tasks.map (expiryTask tid) } tid
      = some (expiryTask tid tk) := by
    show (plan.tasks.map (expiryTask tid)).find? (fun tk' => tk'.id == tid)
      = some (expiryTask tid tk)
    rw [find?_map_preserve _ _ _ (expiryTask_id tid), hfind', Option.map_some']
  have hexp_tk : expiryTask tid tk = { tk with
      actualDuration := tk.actualDuration + 25,
      actualPomodoros := tk.actualPomodoros + 1,
      completed := if 0 < tk.duration then
          decide (tk.duration ≤ tk.actualPomodoros + 1)
        else tk.completed } := by
    simp only [expiryTask, if_pos hpred]
  rw [htick]
  simp only [expire, hfm, hplan, htid]
  rw [if_neg htid']
  by_cases hc : Int.tmod (w.timer.pomodoroCycle + 1) 4 = 0
  · rw [if_pos hc, if_pos hc]
    exact ⟨⟨_, rfl, by rw [hplanPart, hexp_tk]⟩, rfl, rfl, rfl, rfl, rfl, rfl⟩
  · rw [if_neg hc, if_neg hc]
    exact ⟨⟨_, rfl, by rw [hplanPart, hexp_tk]⟩, rfl, rfl, rfl, rfl, rfl, rfl⟩

/-- Witness for C4: the quota-1 pomodoro of the scenario trace expires
at t = 1501 s; the task gains one pomodoro and 25 minutes, completes,
the cycle count becomes 1 and a 300 s short break auto-starts. -/
theorem C4_witness :
    (∃ plan2, (tick 1501000 wC4w).dailyPlan = some plan2 ∧
      findTask plan2 "t1" = some { baseTask "t1" 1 with
        actualDuration := (baseTask "t1" 1).actualDuration + 25,
        actualPomodoros := (baseTask "t1" 1).actualPomodoros + 1,
        completed := if 0 < (baseTask "t1" 1).duration then
            decide ((baseTask "t1" 1).duration ≤ (baseTask "t1" 1).actualPomodoros + 1)
          else (baseTask "t1" 1).completed }) ∧
    (tick 1501000 wC4w).timer.pomodoroCycle = wC4w.timer.pomodoroCycle + 1 ∧
    (tick 1501000 wC4w).timer.isTimerActive = true ∧
    (tick 1501000 wC4w).timer.activeFocusTaskId = some "t1" ∧
    (if Int.tmod (wC4w.timer.pomodoroCycle + 1) 4 = 0 then
       (tick 1501000 wC4w).timer.focusMode = some FocusMode.long_break ∧
       (tick 1501000 wC4w).timer.timerValue = LONG_BREAK_TIME ∧
       (tick 1501000 wC4w).timer.endTime = some (1501000 + LONG_BREAK_TIME * 1000)
     else
       (tick 1501000 wC4w).timer.focusMode = some FocusMode.short_break ∧
       (tick 1501000 wC4w).timer.timerValue = SHORT_BREAK_TIME ∧
       (tick 1501000 wC4w).timer.endTime = some (1501000 + SHORT_BREAK_TIME * 1000)) :=
  C4_pomodoro_expiry wC4w 1501000 1501000 (planWith .pomodoros [baseTask "t1" 1])
    "t1" (baseTask "t1" 1) (by decide) (by decide) (by decide) (by decide)
    (by decide) (by decide) (by decide) (by decide) (by decide)

/-- Claim C6 (amended): in every reachable state of the session engine, a
non-idle mode implies a retained task reference (equivalently: no task
reference implies the idle mode); the converse direction of the claimed
iff fails, because a break expiry or skip returns the mode to idle while
retaining the task reference. -/
theorem C6_idle_task_invariant {w w' : World} (hinit : Init w)
    (hr : Reaches w w') :
    w'.timer.activeFocusTaskId = none → w'.timer.focusMode = none := by
  intro hnone
  have hinv := inv_reaches hinit hr
  cases hfm : w'.timer.focusMode with
  | none => rfl
  | some m =>
    obtain ⟨s, hs, _⟩ := hinv.1 (by rw [hfm]; rfl)
    rw [hnone] at hs
    cases hs

/-- Witness for C6 at the initial scenario world. -/
theorem C6_witness :
    Init w0C6 ∧
    (w0C6.timer.activeFocusTaskId = none → w0C6.timer.focusMode = none) := by
  have hinit : Init w0C6 := by
    refine ⟨rfl, rfl, fun tk htk => ?_⟩
    have h1 : tk ∈ [baseTask "t1" 5] := htk
    rw [List.mem_singleton] at h1
    subst h1
    decide
  exact ⟨hinit, C6_idle_task_invariant hinit (Reaches.refl w0C6)⟩

/-- Counterexample to claim C6 as stated: after a started pomodoro
expires at t = 2500 s and its auto-started short break expires at
t = 2800 s, the engine reaches a state whose mode is idle (`focusMode =
none`) while the task reference t1 is still retained, refuting the
claimed iff. -/
theorem C6_counterexample :
    Reaches w0C6 wBadC6 ∧ wBadC6.timer.focusMode = none ∧
    wBadC6.timer.activeFocusTaskId = some "t1" := by
  refine ⟨?_, by decide, by decide⟩
  have h1 : Reaches w0C6 (handleStartFocus "t1" 1000000 w0C6) :=
    Reaches.tail (Reaches.refl w0C6) (Step.start "t1" 1000000 w0C6)
  have h2 : Reaches w0C6 (tick 2500000 (handleStartFocus "t1" 1000000 w0C6)) :=
    Reaches.tail h1 (Step.tickStep 2500000 _)
  exact Reaches.tail h2 (Step.tickStep 2800000 _)

/-- Claim C8 (amended): resume() in a state that forbids it — already
running, no session mode, or no resolvable active task — is a silent
no-op (the state is unchanged and, being a total function, it cannot
crash; no failure is signaled to the caller); start() while a session is
active is however not a no-op: it stops and flushes the previous session
and then starts the requested one. -/
theorem C8_invalid_resume_noop (w : World) (now : Int) :
    (w.timer.isTimerActive = true → handleResumeFocus now w = w) ∧
    (w.timer.focusMode = none → handleResumeFocus now w = w) ∧
    ((activeFocusTask w).isNone = true → handleResumeFocus now w = w) := by
  refine ⟨fun h => ?_, fun h => ?_, fun h => ?_⟩
  · have hg : ¬(¬w.timer.isTimerActive = true ∧ w.timer.focusMode.isSome = true ∧
        (activeFocusTask w).isSome = true) := fun hc => hc.1 h
    simp only [handleResumeFocus]
    rw [if_neg hg]
  · have hg : ¬(¬w.timer.isTimerActive = true ∧ w.timer.focusMode.isSome = true ∧
        (activeFocusTask w).isSome = true) := by
      intro hc
      rw [h] at hc
      simp at hc
    simp only [handleResumeFocus]
    rw [if_neg hg]
  · have hg : ¬(¬w.timer.isTimerActive = true ∧ w.timer.focusMode.isSome = true ∧
        (activeFocusTask w).isSome = true) := by
      intro hc
      rw [Option.isNone_iff_eq_none] at h
      rw [h] at hc
      simp at hc
    simp only [handleResumeFocus]
    rw [if_neg hg]

/-- Witness for C8: resuming the already-running stopwatch session of the
scenario trace changes nothing. -/
theorem C8_witness :
    wC8run.timer.isTimerActive = true ∧
    handleResumeFocus 1070000 wC8run = wC8run :=
  ⟨by decide, (C8_invalid_resume_noop wC8run 1070000).1 (by decide)⟩

/-- Claim C9: when the referenced task is removed from the daily plan or
from its owning environment list by an external collaborator, the engine
performs forced teardown: the pending delta is discarded (the plan
record, and in particular every task's progress fields, is not updated),
the persisted snapshot is cleared, and the session returns to idle;
moreover the only non-user-driven engine operations (tick, the interval
arming effect and the persistence effect) never clear the task
reference, so this is the only path tearing a session down without an
explicit user action. -/
theorem C9_forced_teardown (w : World) (now : Int) (tid : String)
    (plan : DailyPlan) (newTasks : List Task) :
    (w.timer.activeFocusTaskId = some tid → tid ≠ "" → w.dailyPlan = some plan →
      (findTask plan tid).isNone = true →
      (planRemovalTeardown now w).timer.activeFocusTaskId = none ∧
      (planRemovalTeardown now w).timer.focusMode = none ∧
      (planRemovalTeardown now w).timer.isTimerActive = false ∧
      (planRemovalTeardown now w).persisted = none ∧
      (planRemovalTeardown now w).dailyPlan = w.dailyPlan ∧
      (planRemovalTeardown now w).environments = w.environments) ∧
    (w.timer.activeFocusTaskId = some tid → tid ≠ "" →
      (newTasks.find? (fun tk => tk.id == tid)).isNone = true →
      (handleUpdateTasks newTasks now w).timer.activeFocusTaskId = none ∧
      (handleUpdateTasks newTasks now w).timer.focusMode = none ∧
      (handleUpdateTasks newTasks now w).persisted = none ∧
      Option.map (fun p => p.tasks.map (fun t => (t.actualDuration, t.actualPomodoros)))
          (handleUpdateTasks newTasks now w).dailyPlan
        = Option.map (fun p => p.tasks.map (fun t => (t.actualDuration, t.actualPomodoros)))
          w.dailyPlan) ∧
    ((tick now w).timer.activeFocusTaskId = w.timer.activeFocusTaskId ∧
      (armTimer now w).timer.activeFocusTaskId = w.timer.activeFocusTaskId ∧
      (persistEffect w).timer.activeFocusTaskId = w.timer.activeFocusTaskId) := by
  refine ⟨fun htid htid' hplan hfnone => ?_,
    fun htid htid' hfnone => ?_,
    ⟨tick_taskId now w, armTimer_taskId now w, rfl⟩⟩
  · simp only [planRemovalTeardown, htid, hplan]
    rw [if_pos ⟨htid', hfnone⟩]
    refine ⟨rfl, rfl, rfl, rfl, ?_, rfl⟩
    show (stopTimer false now w).dailyPlan = some plan
    rw [stopTimer_dailyPlan, stopTimerPlan_noSave, hplan]
  · simp only [handleUpdateTasks, htid]
    rw [if_pos ⟨htid', hfnone⟩]
    refine ⟨?_, ?_, ?_, ?_⟩
    · split <;> split <;> rfl
    · split <;> split <;> rfl
    · split <;> split <;> rfl
    · split
      · rename_i plan1 hplan1
        split <;>
          · show Option.map _ (some _) = Option.map _ w.dailyPlan
            rw [hplan1, Option.map_some', Option.map_some']
            congr 1
            exact map_proj_of_preserve _ _ (fun pt => by split <;> rfl) _
      · rename_i hplan1
        split <;>
          · show Option.map _ (stopTimerPlan false w.timer w.dailyPlan)
              = Option.map _ w.dailyPlan
            rw [stopTimerPlan_noSave]

/-- Witness for C9 at the scenario world whose running session references
the externally deleted task t1. -/
theorem C9_witness :
    ((planRemovalTeardown 1060000 wC9).timer.activeFocusTaskId = none ∧
     (planRemovalTeardown 1060000 wC9).timer.focusMode = none ∧
     (planRemovalTeardown 1060000 wC9).timer.isTimerActive = false ∧
     (planRemovalTeardown 1060000 wC9).persisted = none ∧
     (planRemovalTeardown 1060000 wC9).dailyPlan = wC9.dailyPlan ∧
     (planRemovalTeardown 1060000 wC9).environments = wC9.environments) ∧
    ((handleUpdateTasks [] 1060000 wC9).timer.activeFocusTaskId = none ∧
     (handleUpdateTasks [] 1060000 wC9).timer.focusMode = none ∧
     (handleUpdateTasks [] 1060000 wC9).persisted = none ∧
     Option.map (fun p => p.tasks.map (fun t => (t.actualDuration, t.actualPomodoros)))
         (handleUpdateTasks [] 1060000 wC9).dailyPlan
       = Option.map (fun p => p.tasks.map (fun t => (t.actualDuration, t.actualPomodoros)))
         wC9.dailyPlan) :=
  ⟨(C9_forced_teardown wC9 1060000 "t1" (planWith .minutes [baseTask "t2" 10]) []).1
      rfl (by decide) rfl (by decide),
   (C9_forced_teardown wC9 1060000 "t1" (planWith .minutes [baseTask "t2" 10]) []).2.1
      rfl (by decide) (by decide)⟩

/-- Claim C10: every task-store write performed by the timer engine
(count-up flush, tick and focus-interval expiry, completeTask) modifies
at most the single task whose id equals the active task reference; all
other tasks in the daily plan and in the environment lists, and all
other fields of the daily plan, are unchanged. -/
theorem C10_engine_frame (w : World) (b : Bool) (now : Int) :
    framedWorld w (stopTimer b now w) ∧ framedWorld w (tick now w) ∧
    framedWorld w (handleCompleteFocusTask now w) :=
  ⟨framed_stopTimer b now w, framed_tick now w, framed_complete now w⟩

end SkylarFocus
